import Mathlib

/-!

# Cart-to-order consolidation pipeline: a shallow embedding

This file embeds the cart reconciliation, order consolidation, size-subscription
and admin-notification operations of the backend (`routers/users.py`,
`routers/telegram_webhook.py`, `routers/store.py`, `utils/telegram.py`,
`models.py`) as executable Lean functions over an explicit database state, and
proves the behavioural properties stated about them.

Conventions of the embedding:
* SQLAlchemy tables become lists of records; the fetch order of a query is the
  list order.  Autoincrement primary keys are modelled with explicit counters.
* Python `float` prices become exact rationals (`ℚ`); a `NULL` price is
  `Option.none` and `product.price or 0` becomes `Option.getD · 0`.
* A request handler is a function from the database state to a result together
  with the database state after the call.  A handler that raises an
  `HTTPException` before any `commit` returns the *original* state: the session
  opened by `get_db` is closed without commit, which rolls the transaction back.
* Exceptions that a handler catches locally never appear in its result type.
-/

namespace RooneyForm

/-- Product row (`models.Product`), restricted to the fields the pipeline
reads: identifier, name, nullable price, optional Telegram post URL and
category slug. -/
structure Product where
  id : Nat
  name : String
  price : Option ℚ
  tg_post_url : Option String
  categorySlug : Option String
  deriving Repr, DecidableEq

/-- Cart row (`models.CartItem`): surrogate id, owning user, referenced
product, quantity. -/
structure CartItem where
  id : Nat
  user_id : Int
  product_id : Nat
  quantity : Int
  deriving Repr, DecidableEq

/-- Order line (`models.OrderItem`): nullable product reference plus the
frozen name/price snapshot and the quantity. -/
structure OrderItem where
  product_id : Option Nat
  product_name : String
  price : ℚ
  quantity : Int
  deriving Repr, DecidableEq

/-- Order row (`models.Order`) with its lines (the `items` relationship). -/
structure Order where
  id : Nat
  total_price : ℚ
  status : String
  items : List OrderItem
  deriving Repr, DecidableEq

/-- Size subscription row.  Modelled from the spec: the `SizeSubscription`
model class is imported by `routers/telegram_webhook.py` but absent from
`models.py`; the spec describes it as "(user, size label)". -/
structure SizeSub where
  user_id : Int
  size : String
  deriving Repr, DecidableEq

/-- The relational store: one list per table, plus autoincrement counters for
the surrogate keys the embedding needs. -/
structure DB where
  products : List Product
  cartItems : List CartItem
  orders : List Order
  sizeSubs : List SizeSub
  users : List Int
  nextCartId : Nat
  nextOrderId : Nat
  deriving Repr, DecidableEq

/-- Resolve a product reference, as the `CartItem.product` relationship does:
the first product row with the given id, if any. -/
def findProduct (db : DB) (pid : Nat) : Option Product :=
  db.products.find? (fun p => p.id == pid)

/-! ## Cart reconciliation (`get_cart`, `routers/users.py` lines 44-84) -/

/-- Single pass of `get_cart` over the fetched rows, in fetch order, carrying
the `seen_products` set: classifies each row as orphan (product absent),
duplicate (product already kept) or kept (quantity corrected to 1), and
returns `(valid_items, orphan_ids, duplicate_ids, quantity_changed)`. -/
def reconcileLoop (db : DB) (seen : List Nat) :
    List CartItem → List CartItem × List Nat × List Nat × Bool
  | [] => ([], [], [], false)
  | it :: rest =>
    if (findProduct db it.product_id).isNone then
      let r := reconcileLoop db seen rest
      (r.1, it.id :: r.2.1, r.2.2.1, r.2.2.2)
    else if it.product_id ∈ seen then
      let r := reconcileLoop db seen rest
      (r.1, r.2.1, it.id :: r.2.2.1, r.2.2.2)
    else
      let r := reconcileLoop db (it.product_id :: seen) rest
      ({ it with quantity := 1 } :: r.1, r.2.1, r.2.2.1, (it.quantity != 1) || r.2.2.2)

/-- Cart read with self-healing reconciliation (`get_cart`).  Returns the
valid rows, the store after the call, and whether a commit was issued.
Orphan and duplicate rows are deleted by id, kept rows have their quantity
pinned to 1, and the commit happens only if some mutation occurred; without a
commit the session rolls back and the store is unchanged. -/
def get_cart (uid : Int) (db : DB) : List CartItem × DB × Bool :=
  let items := db.cartItems.filter (fun r => r.user_id == uid)
  let r := reconcileLoop db [] items
  let valid := r.1
  let removed := r.2.1 ++ r.2.2.1
  let keptIds := valid.map (fun it => it.id)
  let committed := !r.2.1.isEmpty || !r.2.2.1.isEmpty || r.2.2.2
  let db' :=
    if committed then
      { db with cartItems := db.cartItems.filterMap (fun row =>
          if row.id ∈ removed then none
          else if row.id ∈ keptIds then some { row with quantity := 1 }
          else some row) }
    else db
  (valid, db', committed)

/-! ## Order consolidation (`create_order`, `routers/users.py` lines 206-294) -/

/-- Outcome of one `create_order` call: the HTTP-level result, the store after
the call, and the delivery outcomes of the two best-effort notifications.
The notification outcomes are `Bool`s, never exceptions: `send_admin_message`
catches every per-destination failure internally, and the call to
`send_user_message_to_admin` is wrapped in `try/except` at the call site. -/
structure OrderOutcome where
  result : Except String Order
  db : DB
  adminDelivered : Bool
  userMsgOk : Bool
  deriving Repr

/-- Build the order lines, one per valid cart row, freezing the product's
name and price (`float(item.product.price or 0)`) with quantity fixed at 1. -/
def orderLineOf (p : Product) : OrderItem :=
  { product_id := some p.id
    product_name := p.name
    price := p.price.getD 0
    quantity := 1 }

/-- Accumulate `order.total_price += price * quantity` over the valid rows in
order, exactly as the loop in `create_order` does. -/
def orderTotal (valid : List (CartItem × Product)) : ℚ :=
  valid.foldl (fun t cp => t + (cp.2.price.getD 0) * 1) 0

/-- The `valid_items` of `create_order`, paired with their resolved products:
the user's cart rows in fetch order whose product still exists. -/
def validCartPairs (uid : Int) (db : DB) : List (CartItem × Product) :=
  (db.cartItems.filter (fun r => r.user_id == uid)).filterMap
    (fun it => (findProduct db it.product_id).map (fun p => (it, p)))

/-- The order `create_order` constructs and flushes on the success path: one
line per valid cart row with the frozen snapshot, total accumulated over the
same rows, server-assigned id and default status. -/
def newOrder (uid : Int) (db : DB) : Order :=
  { id := db.nextOrderId
    total_price := orderTotal (validCartPairs uid db)
    status := "received"
    items := (validCartPairs uid db).map (fun cp => orderLineOf cp.2) }

/-- Order consolidation (`create_order`).  `sendAdmin` is the result of
`send_admin_message`; `sendUser` is the result of
`send_user_message_to_admin`, which may raise (`Except.error`) and is caught
at the call site.  On an all-orphan or empty cart the handler raises
`HTTPException(400, "Cart is empty")` before any commit, so the orphan purge
issued just before is rolled back when the session closes and the store is
returned unchanged.  On success the order and its lines are persisted and all
cart rows of the user are deleted in the same committed transaction. -/
def create_order (uid : Int) (sendAdmin : Bool) (sendUser : Except String Bool)
    (db : DB) : OrderOutcome :=
  if (validCartPairs uid db).isEmpty then
    { result := Except.error "Cart is empty"
      db := db
      adminDelivered := false
      userMsgOk := false }
  else
    { result := Except.ok (newOrder uid db)
      db := { db with
        orders := db.orders ++ [newOrder uid db]
        cartItems := db.cartItems.filter (fun r => !(r.user_id == uid))
        nextOrderId := db.nextOrderId + 1 }
      adminDelivered := sendAdmin
      userMsgOk := match sendUser with | Except.ok _ => true | Except.error _ => false }

/-! ## Adding to the cart (`add_to_cart`, `routers/users.py` lines 86-126) -/

/-- Cart insertion (`add_to_cart`).  404 if the product does not exist; if
rows for `(user, product)` already exist the first one survives with its
quantity reset to 1 and the extras are deleted; otherwise one new row with
quantity 1 is inserted. -/
def add_to_cart (uid : Int) (pid : Nat) (db : DB) : Except String CartItem × DB :=
  if (findProduct db pid).isNone then
    (Except.error "Product not found", db)
  else
    let rows := db.cartItems.filter (fun r => r.user_id == uid && r.product_id == pid)
    match rows with
    | [] =>
      let item : CartItem :=
        { id := db.nextCartId, user_id := uid, product_id := pid, quantity := 1 }
      (Except.ok item,
       { db with cartItems := db.cartItems ++ [item], nextCartId := db.nextCartId + 1 })
    | first :: extras =>
      let extraIds := extras.map (fun r => r.id)
      (Except.ok { first with quantity := 1 },
       { db with cartItems := db.cartItems.filterMap (fun r =>
           if r.id == first.id then some { r with quantity := 1 }
           else if r.id ∈ extraIds then none
           else some r) })

/-! ## Product mutation and deletion (`routers/store.py` lines 198-257) -/

/-- Product update (`update_product`), restricted to the name/price fields of
the generic `setattr` loop; an unset field (`exclude_unset`) is `none`. -/
def update_product (pid : Nat) (newName : Option String)
    (newPrice : Option (Option ℚ)) (db : DB) : Except String Unit × DB :=
  if (findProduct db pid).isNone then
    (Except.error "Product not found", db)
  else
    (Except.ok (),
     { db with products := db.products.map (fun p =>
         if p.id == pid then
           { p with name := newName.getD p.name, price := newPrice.getD p.price }
         else p) })

/-- Product deletion (`delete_product`): removes the product row only; cart
rows and order lines referencing it are left in place (no cascade), which is
what creates orphans. -/
def delete_product (pid : Nat) (db : DB) : Except String Unit × DB :=
  if (findProduct db pid).isNone then
    (Except.error "Product not found", db)
  else
    (Except.ok (), { db with products := db.products.filter (fun p => !(p.id == pid)) })

/-! ## The `/size` command (`routers/telegram_webhook.py` lines 29-73)

The string helpers model the Python `str` methods used by the handler, over
the ASCII alphabet the size labels and keywords live in. -/

/-- Whitespace as recognised by Python's `str.split`/`str.strip` (ASCII). -/
def pyIsSpace (c : Char) : Bool :=
  c == ' ' || c == '\t' || c == '\n' || c == '\r' || c == '\x0b' || c == '\x0c'

/-- Python `text.split(maxsplit=1)`: leading whitespace dropped, first
whitespace-free token, then the remainder after the separating run (empty
remainder yields a one-element list). -/
def pySplitMax1 (s : String) : List String :=
  let l := s.toList.dropWhile pyIsSpace
  if l.isEmpty then []
  else
    let tok := l.takeWhile (fun c => !(pyIsSpace c))
    let rest := (l.dropWhile (fun c => !(pyIsSpace c))).dropWhile pyIsSpace
    if rest.isEmpty then [String.mk tok] else [String.mk tok, String.mk rest]

/-- Python `s.strip()`. -/
def pyStrip (s : String) : String :=
  String.mk (((s.toList.dropWhile pyIsSpace).reverse.dropWhile pyIsSpace).reverse)

/-- Python `s.lower()` (ASCII model). -/
def pyLower (s : String) : String :=
  String.mk (s.toList.map Char.toLower)

/-- Python `s.upper()` (ASCII model). -/
def pyUpper (s : String) : String :=
  String.mk (s.toList.map Char.toUpper)

/-- The disable keywords of `/size`: `arg.lower() in {"off", "stop", "cancel"}`. -/
def offWords : List String := ["off", "stop", "cancel"]

/-- Usage text replied to a bare `/size`. -/
def sizeUsageText : String :=
  "Использование:\n/size M — присылать уведомления о новых товарах размера M\n/size off — отключить уведомления по размеру"

/-- Lazy user creation (`_ensure_user`): insert the id if absent, commit. -/
def ensure_user (uid : Int) (db : DB) : DB :=
  if uid ∈ db.users then db else { db with users := db.users ++ [uid] }

/-- The `/size` command handler (`_handle_size_command`): returns the reply
text and the store after the call.  A bare `/size` replies with usage and
mutates nothing; a disable keyword deletes all subscriptions of the user; any
other argument deletes all subscriptions of the user and inserts a single row
with the upper-cased value, in the same committed transaction. -/
def handle_size_command (chatId : Int) (text : String) (db : DB) : String × DB :=
  match pySplitMax1 text with
  | [] => (sizeUsageText, db)
  | [_] => (sizeUsageText, db)
  | _ :: arg0 :: _ =>
    let arg := pyStrip arg0
    let db1 := ensure_user chatId db
    if pyLower arg ∈ offWords then
      ("Уведомления по размерам отключены.",
       { db1 with sizeSubs := db1.sizeSubs.filter (fun r => !(r.user_id == chatId)) })
    else
      let v := pyUpper arg
      ("Готово! Буду присылать новые товары с размером " ++ v ++ ".",
       { db1 with sizeSubs :=
           db1.sizeSubs.filter (fun r => !(r.user_id == chatId)) ++ [⟨chatId, v⟩] })

/-- The store after a sequence of `/size` commands issued by one chat. -/
def applySizeCmds (chatId : Int) (texts : List String) (db : DB) : DB :=
  texts.foldl (fun d t => (handle_size_command chatId t d).2) db

/-- Subscription rows of one user, in store order. -/
def subsOf (db : DB) (uid : Int) : List SizeSub :=
  db.sizeSubs.filter (fun r => r.user_id == uid)

/-! ## Notification sink (`send_admin_message`, `utils/telegram.py` lines 70-88) -/

/-- Result of one `_post_json` call to a destination: `ok` for an accepted
message, `error` for any raised exception. -/
def postOk (r : Except String Unit) : Bool :=
  match r with
  | Except.ok _ => true
  | Except.error _ => false

/-- Admin notification fan-out (`send_admin_message`).  `token` is the bot
token (`none` for missing/empty), `chatIds` the configured destinations and
`post` the network send per destination.  Returns the delivered flag and the
list of destinations actually attempted; each failure is caught inside the
loop, so the function is total. -/
def send_admin_message (token : Option String) (chatIds : List String)
    (post : String → Except String Unit) : Bool × List String :=
  match token with
  | none => (false, [])
  | some _ =>
    if chatIds.isEmpty then (false, [])
    else
      chatIds.foldl
        (fun acc cid =>
          match post cid with
          | Except.ok _ => (true, acc.2 ++ [cid])
          | Except.error _ => (acc.1, acc.2 ++ [cid]))
        (false, [])

/-! ## Specification-level helpers -/

/-- Keep-first deduplication on the product reference, the order-preserving
reduction the spec describes for duplicate cart rows. -/
def dedupByProduct (seen : List Nat) : List CartItem → List CartItem
  | [] => []
  | it :: rest =>
    if it.product_id ∈ seen then dedupByProduct seen rest
    else it :: dedupByProduct (it.product_id :: seen) rest

/-- The reconciled cart the spec describes: rows of the user in fetch order,
orphans dropped, first row per product kept, quantities pinned to 1. -/
def specValidCart (uid : Int) (db : DB) : List CartItem :=
  ((db.cartItems.filter (fun r => r.user_id == uid)).filter
      (fun it => (findProduct db it.product_id).isSome)
    |> dedupByProduct []).map (fun it => { it with quantity := 1 })

/-- The cart invariants for one user: every row resolves to a live product,
has quantity 1, and no product occurs twice. -/
def cartInvariant (uid : Int) (db : DB) : Prop :=
  (∀ it ∈ db.cartItems.filter (fun r => r.user_id == uid),
      (findProduct db it.product_id).isSome = true ∧ it.quantity = 1) ∧
  ((db.cartItems.filter (fun r => r.user_id == uid)).map
      (fun it => it.product_id)).Nodup

instance (uid : Int) (db : DB) : Decidable (cartInvariant uid db) := by
  unfold cartInvariant
  infer_instance

/-! ## Concrete stores for evaluation -/

/-- A store holding a single orphan cart row: product 5 has been deleted,
user 7's only cart row still references it. -/
def dbOrphan : DB :=
  { products := []
    cartItems := [⟨1, 7, 5, 1⟩]
    orders := []
    sizeSubs := []
    users := [7]
    nextCartId := 2
    nextOrderId := 1 }

/-- The two-shirt scenario of the spec: two live products at 85 and 90, one
cart row each for user 7. -/
def dbTwo : DB :=
  { products := [⟨1, "Shirt A", some 85, none, none⟩, ⟨2, "Shirt B", some 90, none, none⟩]
    cartItems := [⟨1, 7, 1, 1⟩, ⟨2, 7, 2, 1⟩]
    orders := []
    sizeSubs := []
    users := [7]
    nextCartId := 3
    nextOrderId := 1 }

/-- The order `create_order` builds for user 7 over `dbTwo`. -/
def ordTwo : Order :=
  { id := 1
    total_price := 175
    status := "received"
    items := [⟨some 1, "Shirt A", 85, 1⟩, ⟨some 2, "Shirt B", 90, 1⟩] }

/-- A messy store for user 7: a duplicate pair for product 5 (first row with
quantity 3), an orphan row for deleted product 9, and a clean row of another
user. -/
def dbMessy : DB :=
  { products := [⟨5, "Shirt A", some 85, none, none⟩, ⟨6, "Shirt B", some 90, none, none⟩]
    cartItems := [⟨1, 7, 5, 3⟩, ⟨2, 7, 9, 1⟩, ⟨3, 7, 5, 1⟩, ⟨4, 8, 6, 1⟩]
    orders := []
    sizeSubs := []
    users := [7, 8]
    nextCartId := 10
    nextOrderId := 1 }

/-- A network stub for the notification sink: destination "a" raises,
destination "b" accepts. -/
def postW : String → Except String Unit :=
  fun cid => if cid == "a" then Except.error "connection reset" else Except.ok ()

/-! ## Theorems -/

/-- Helper: evaluating `create_order` over the two-shirt store yields the
expected concrete order. -/
theorem createOrder_dbTwo_result :
    (create_order 7 true (Except.ok true) dbTwo).result = Except.ok ordTwo := by
  simp [create_order, validCartPairs, newOrder, dbTwo, ordTwo, orderTotal,
    orderLineOf, findProduct, List.filter, List.filterMap, List.find?]
  norm_num

/-- C1 (counterexample): over `dbOrphan` — user 7's whole cart is one orphan
row — `create_order` fails with the 400 "Cart is empty" error, but contrary
to the claim the orphan row is *not* removed from the store: the delete is
issued inside the transaction that the raised exception then rolls back, so
the store after the failed call still holds the orphan row unchanged. -/
theorem createOrder_allOrphans_keeps_rows :
    (create_order 7 true (Except.ok true) dbOrphan).result = Except.error "Cart is empty"
    ∧ (create_order 7 true (Except.ok true) dbOrphan).db = dbOrphan
    ∧ dbOrphan.cartItems ≠ [] := by
  refine ⟨rfl, rfl, ?_⟩
  decide

/-- C1 (amended): for every cart in which every row references a deleted
product, `create_order` fails with the 400 "Cart is empty" error and creates
no Order and no OrderLine; the orphan purge it issues is rolled back together
with the aborted transaction, so the store — orphan rows included — is
unchanged after the failed call. -/
theorem createOrder_allOrphans_fails_rolls_back (db : DB) (uid : Int)
    (sa : Bool) (su : Except String Bool)
    (h : ∀ it ∈ db.cartItems, it.user_id = uid → findProduct db it.product_id = none) :
    (create_order uid sa su db).result = Except.error "Cart is empty"
    ∧ (create_order uid sa su db).db = db := by
  have hvalid : validCartPairs uid db = [] := by
    rw [validCartPairs, List.filterMap_eq_nil_iff]
    intro it hit
    rcases List.mem_filter.mp hit with ⟨hmem, huid⟩
    rw [h it hmem (by simpa using huid)]
    rfl
  unfold create_order
  rw [hvalid]
  exact ⟨rfl, rfl⟩

/-- C1 (witness): the amended theorem applied to the concrete orphan store. -/
theorem createOrder_allOrphans_fails_rolls_back_witness :
    (create_order 7 true (Except.ok true) dbOrphan).result = Except.error "Cart is empty"
    ∧ (create_order 7 true (Except.ok true) dbOrphan).db = dbOrphan :=
  createOrder_allOrphans_fails_rolls_back dbOrphan 7 true (Except.ok true) (by decide)

/-- C9: the outcome of `create_order` — the HTTP result and the committed
store — is independent of the notification delivery outcomes, including a
raised exception in the user-intent send (which the handler catches); the
returned order is the one persisted in the store. -/
theorem createOrder_notify_independent (db : DB) (uid : Int)
    (sa sa' : Bool) (su su' : Except String Bool) (o : Order)
    (h : (create_order uid sa su db).result = Except.ok o) :
    (create_order uid sa' su' db).result = Except.ok o
    ∧ (create_order uid sa' su' db).db = (create_order uid sa su db).db
    ∧ o ∈ (create_order uid sa su db).db.orders := by
  unfold create_order at h ⊢
  by_cases hv : (validCartPairs uid db).isEmpty
  · rw [if_pos hv] at h
    exact absurd h (by simp)
  · simp only [if_neg hv] at h ⊢
    injection h with h
    subst h
    simp

/-- C9 (witness): over the two-shirt store, a failing user-intent send and a
failed admin send leave the result and the committed store identical to the
all-successful run, and the returned order is persisted. -/
theorem createOrder_notify_independent_witness :
    (create_order 7 false (Except.error "net down") dbTwo).result = Except.ok ordTwo
    ∧ (create_order 7 false (Except.error "net down") dbTwo).db
        = (create_order 7 true (Except.ok true) dbTwo).db
    ∧ ordTwo ∈ (create_order 7 true (Except.ok true) dbTwo).db.orders :=
  createOrder_notify_independent dbTwo 7 true false (Except.ok true)
    (Except.error "net down") ordTwo createOrder_dbTwo_result

/-- Helper: the running total accumulated by `create_order` equals an initial
value plus the sum of `price * quantity` over the frozen lines. -/
theorem foldl_total_eq_lines_sum (valid : List (CartItem × Product)) :
    ∀ t : ℚ, valid.foldl (fun t cp => t + (cp.2.price.getD 0) * 1) t
      = t + ((valid.map (fun cp => orderLineOf cp.2)).map
          (fun l => l.price * (l.quantity : ℚ))).sum := by
  induction valid with
  | nil => intro t; simp
  | cons cp rest ih =>
    intro t
    simp only [List.foldl_cons, List.map_cons, List.sum_cons, ih, orderLineOf]
    push_cast
    ring

/-- C2: whenever `create_order` returns an order, its `total_price` equals
the sum over its lines of `price * quantity`, exactly (each line's price is
the product's price at order time with a null price taken as 0, and each
quantity is 1). -/
theorem createOrder_total_consistent (db : DB) (uid : Int) (sa : Bool)
    (su : Except String Bool) (o : Order)
    (h : (create_order uid sa su db).result = Except.ok o) :
    o.total_price = (o.items.map (fun l => l.price * (l.quantity : ℚ))).sum := by
  unfold create_order at h
  by_cases hv : (validCartPairs uid db).isEmpty
  · rw [if_pos hv] at h
    exact absurd h (by simp)
  · simp only [if_neg hv] at h
    injection h with h
    subst h
    show orderTotal (validCartPairs uid db) = _
    unfold orderTotal
    rw [foldl_total_eq_lines_sum]
    simp [newOrder]

/-- C2 (witness): the two-shirt order totals 175 = 85 + 90, exactly the sum
of its two line totals. -/
theorem createOrder_total_consistent_witness :
    ordTwo.total_price = (ordTwo.items.map (fun l => l.price * (l.quantity : ℚ))).sum :=
  createOrder_total_consistent dbTwo 7 true (Except.ok true) ordTwo
    createOrder_dbTwo_result

/-- C3: after every successful `create_order` call the store holds no cart
row of the user — the full clear is part of the committed transaction — and a
subsequent `get_cart` for the user returns the empty list without writing or
committing. -/
theorem createOrder_then_getCart_empty (db : DB) (uid : Int) (sa : Bool)
    (su : Except String Bool) (o : Order)
    (h : (create_order uid sa su db).result = Except.ok o) :
    (create_order uid sa su db).db.cartItems.filter (fun r => r.user_id == uid) = []
    ∧ get_cart uid (create_order uid sa su db).db
        = ([], (create_order uid sa su db).db, false) := by
  have hnil : (create_order uid sa su db).db.cartItems.filter
      (fun r => r.user_id == uid) = [] := by
    unfold create_order at h ⊢
    by_cases hv : (validCartPairs uid db).isEmpty
    · rw [if_pos hv] at h
      exact absurd h (by simp)
    · simp only [if_neg hv]
      rw [List.filter_filter]
      have : (fun r : CartItem => (r.user_id == uid) && !(r.user_id == uid))
          = fun _ => false := by
        funext r
        cases r.user_id == uid <;> rfl
      rw [this, List.filter_false]
  refine ⟨hnil, ?_⟩
  unfold get_cart
  rw [hnil]
  rfl

/-- C3 (witness): over the two-shirt store the successful order leaves user
7's cart empty and a following cart read returns the empty list, touching
nothing. -/
theorem createOrder_then_getCart_empty_witness :
    (create_order 7 true (Except.ok true) dbTwo).db.cartItems.filter
        (fun r => r.user_id == (7 : Int)) = []
    ∧ get_cart 7 (create_order 7 true (Except.ok true) dbTwo).db
        = ([], (create_order 7 true (Except.ok true) dbTwo).db, false) :=
  createOrder_then_getCart_empty dbTwo 7 true (Except.ok true) ordTwo
    createOrder_dbTwo_result

/-- C4: every line of an order returned by `create_order` froze the name and
price of a product that was live in the store at order time; and the product
mutation and deletion operations leave the orders table — hence every stored
line's name and price — untouched, over any store. -/
theorem orderLines_frozen_snapshot (db : DB) (uid : Int) (sa : Bool)
    (su : Except String Bool) (o : Order)
    (h : (create_order uid sa su db).result = Except.ok o) :
    (∀ l ∈ o.items, ∃ p ∈ db.products,
        l.product_id = some p.id ∧ l.product_name = p.name ∧ l.price = p.price.getD 0)
    ∧ (∀ (db2 : DB) (pid : Nat) (nm : Option String) (pr : Option (Option ℚ)),
        ((update_product pid nm pr db2).2).orders = db2.orders)
    ∧ (∀ (db2 : DB) (pid : Nat), ((delete_product pid db2).2).orders = db2.orders) := by
  refine ⟨?_, ?_, ?_⟩
  · unfold create_order at h
    by_cases hv : (validCartPairs uid db).isEmpty
    · rw [if_pos hv] at h
      exact absurd h (by simp)
    · simp only [if_neg hv] at h
      injection h with h
      subst h
      intro l hl
      simp only [newOrder] at hl
      rcases List.mem_map.mp hl with ⟨cp, hcp, rfl⟩
      rcases List.mem_filterMap.mp hcp with ⟨it, hit, hmap⟩
      rcases Option.map_eq_some'.mp hmap with ⟨p, hfind, hpair⟩
      refine ⟨p, List.mem_of_find?_eq_some hfind, ?_, ?_, ?_⟩ <;>
        simp [orderLineOf, ← hpair]
  · intro db2 pid nm pr
    unfold update_product
    split <;> rfl
  · intro db2 pid
    unfold delete_product
    split <;> rfl

/-- C4 (witness): the first line of the two-shirt order snapshots a product
live in `dbTwo` at order time, and renaming/repricing product 1 or deleting
product 2 afterwards leaves the orders table of the post-order store as it
was. -/
theorem orderLines_frozen_snapshot_witness :
    (∃ p ∈ dbTwo.products,
        (⟨some 1, "Shirt A", 85, 1⟩ : OrderItem).product_id = some p.id
        ∧ (⟨some 1, "Shirt A", 85, 1⟩ : OrderItem).product_name = p.name
        ∧ (⟨some 1, "Shirt A", 85, 1⟩ : OrderItem).price = p.price.getD 0)
    ∧ ((update_product 1 (some "Renamed") (some (some 5)) (create_order 7 true (Except.ok true) dbTwo).db).2).orders
        = (create_order 7 true (Except.ok true) dbTwo).db.orders
    ∧ ((delete_product 2 (create_order 7 true (Except.ok true) dbTwo).db).2).orders
        = (create_order 7 true (Except.ok true) dbTwo).db.orders :=
  ⟨(orderLines_frozen_snapshot dbTwo 7 true (Except.ok true) ordTwo
      createOrder_dbTwo_result).1 ⟨some 1, "Shirt A", 85, 1⟩ (by simp [ordTwo]),
   (orderLines_frozen_snapshot dbTwo 7 true (Except.ok true) ordTwo
      createOrder_dbTwo_result).2.1 _ 1 (some "Renamed") (some (some 5)),
   (orderLines_frozen_snapshot dbTwo 7 true (Except.ok true) ordTwo
      createOrder_dbTwo_result).2.2 _ 2⟩

/-- Helper: the delivered flag accumulated by the send loop is the initial
flag or-ed with "some destination accepted". -/
theorem sendFold_fst (post : String → Except String Unit) (l : List String) :
    ∀ (b : Bool) (acc : List String),
      (l.foldl (fun acc cid =>
          match post cid with
          | Except.ok _ => (true, acc.2 ++ [cid])
          | Except.error _ => (acc.1, acc.2 ++ [cid])) (b, acc)).1
        = (b || l.any (fun cid => postOk (post cid))) := by
  induction l with
  | nil => intro b acc; simp
  | cons cid l ih =>
    intro b acc
    rw [List.foldl_cons]
    rcases hp : post cid with u | e <;> simp only [hp] <;> rw [ih] <;>
      simp [hp, postOk]

/-- Helper: the send loop attempts every destination in order, regardless of
failures. -/
theorem sendFold_snd (post : String → Except String Unit) (l : List String) :
    ∀ (b : Bool) (acc : List String),
      (l.foldl (fun acc cid =>
          match post cid with
          | Except.ok _ => (true, acc.2 ++ [cid])
          | Except.error _ => (acc.1, acc.2 ++ [cid])) (b, acc)).2
        = acc ++ l := by
  induction l with
  | nil => intro b acc; simp
  | cons cid l ih =>
    intro b acc
    rw [List.foldl_cons]
    rcases hp : post cid with u | e <;> simp only [hp] <;> rw [ih] <;> simp

/-- C8: the admin notification is delivered iff a token is configured and at
least one configured destination accepts; with no token or no destinations it
returns false with no destination attempted; and when configured every
destination is attempted, each failure being absorbed inside the loop. -/
theorem sendAdminMessage_spec (token : Option String) (chatIds : List String)
    (post : String → Except String Unit) :
    ((send_admin_message token chatIds post).1 = true ↔
        token ≠ none ∧ chatIds.any (fun cid => postOk (post cid)) = true)
    ∧ (token = none ∨ chatIds = [] → send_admin_message token chatIds post = (false, []))
    ∧ (token ≠ none → chatIds ≠ [] →
        (send_admin_message token chatIds post).2 = chatIds) := by
  unfold send_admin_message
  cases token with
  | none => simp
  | some t =>
    by_cases hc : chatIds.isEmpty
    · have hnil : chatIds = [] := by simpa using hc
      subst hnil
      simp
    · rw [if_neg hc]
      refine ⟨?_, ?_, ?_⟩
      · rw [sendFold_fst]
        simp
      · intro hor
        rcases hor with h | h
        · exact absurd h (by simp)
        · subst h
          simp at hc
      · intro _ _
        rw [sendFold_snd]
        simp

/-- C8 (witness): with a token and destinations "a" (failing) and "b"
(accepting), delivery is true and both destinations were attempted; with no
token nothing is attempted and the result is false. -/
theorem sendAdminMessage_spec_witness :
    (send_admin_message (some "t") ["a", "b"] postW).1 = true
    ∧ (send_admin_message (some "t") ["a", "b"] postW).2 = ["a", "b"]
    ∧ send_admin_message none ["a", "b"] postW = (false, []) :=
  ⟨(sendAdminMessage_spec (some "t") ["a", "b"] postW).1.mpr ⟨by simp, by decide⟩,
   (sendAdminMessage_spec (some "t") ["a", "b"] postW).2.2 (by simp) (by simp),
   (sendAdminMessage_spec none ["a", "b"] postW).2.1 (Or.inl rfl)⟩

/-- Helper: `dropWhile` is the identity on a list none of whose elements
satisfy the predicate. -/
theorem dropWhile_of_all_false {p : Char → Bool} :
    ∀ l : List Char, (∀ c ∈ l, p c = false) → l.dropWhile p = l
  | [], _ => rfl
  | c :: cs, h => by
    rw [List.dropWhile_cons, h c (List.mem_cons_self c cs)]
    simp

/-- Helper: rebuilding a string from its character list is the identity. -/
theorem stringMk_toList (s : String) : String.mk s.toList = s := by
  cases s
  rfl

/-- Helper: `s.strip()` is the identity on a whitespace-free string. -/
theorem pyStrip_eq_self (v : String) (hv : ∀ c ∈ v.toList, pyIsSpace c = false) :
    pyStrip v = v := by
  unfold pyStrip
  rw [dropWhile_of_all_false v.toList hv,
    dropWhile_of_all_false v.toList.reverse
      (fun c hc => hv c (List.mem_reverse.mp hc)),
    List.reverse_reverse, stringMk_toList]

/-- Helper: `("/size " + v).split(maxsplit=1)` yields exactly the command
token and the argument, for a nonempty whitespace-free argument `v`. -/
theorem pySplitMax1_size_cmd (v : String) (hne : v.toList ≠ [])
    (hv : ∀ c ∈ v.toList, pyIsSpace c = false) :
    pySplitMax1 ("/size " ++ v) = ["/size", v] := by
  obtain ⟨c, cs, hcs⟩ : ∃ c cs, v.toList = c :: cs := by
    cases h : v.toList with
    | nil => exact absurd h hne
    | cons c cs => exact ⟨c, cs, rfl⟩
  have hc : pyIsSpace c = false := hv c (by rw [hcs]; exact List.mem_cons_self c cs)
  have hlist : ("/size " ++ v).toList
      = '/' :: 's' :: 'i' :: 'z' :: 'e' :: ' ' :: v.toList := by
    have hdata : ("/size " ++ v).toList = "/size ".toList ++ v.toList := by
      cases v
      rfl
    rw [hdata]
    rfl
  have c1 : pyIsSpace '/' = false := by decide
  have c2 : pyIsSpace 's' = false := by decide
  have c3 : pyIsSpace 'i' = false := by decide
  have c4 : pyIsSpace 'z' = false := by decide
  have c5 : pyIsSpace 'e' = false := by decide
  have c6 : pyIsSpace ' ' = true := by decide
  simp only [pySplitMax1, hlist, hcs, List.dropWhile_cons, List.takeWhile_cons,
    c1, c2, c3, c4, c5, c6, hc, Bool.not_true, Bool.not_false, if_true, if_false,
    Bool.false_eq_true, Bool.true_eq_false, ite_false, ite_true,
    List.isEmpty_cons]
  rw [← hcs, stringMk_toList]

/-- Helper: `_ensure_user` never touches the subscription table. -/
theorem ensure_user_sizeSubs (u : Int) (db : DB) :
    (ensure_user u db).sizeSubs = db.sizeSubs := by
  unfold ensure_user
  split <;> rfl

/-- Helper: rows of a user filtered out of a table cannot reappear when the
table is filtered back to that user. -/
theorem filter_user_of_filter_not (l : List SizeSub) (u : Int) :
    (l.filter (fun r => !(r.user_id == u))).filter (fun r => r.user_id == u) = [] := by
  rw [List.filter_filter]
  have h : (fun r : SizeSub => (r.user_id == u) && !(r.user_id == u)) = fun _ => false := by
    funext r
    cases r.user_id == u <;> rfl
  rw [h, List.filter_false]

/-- Helper: a `/size <VALUE>` command with a whitespace-free non-disable
value replaces the user's subscriptions by the single upper-cased row. -/
theorem handleSize_set (u : Int) (v : String) (db : DB)
    (hne : v.toList ≠ []) (hv : ∀ c ∈ v.toList, pyIsSpace c = false)
    (hoff : pyLower v ∉ offWords) :
    subsOf (handle_size_command u ("/size " ++ v) db).2 u = [⟨u, pyUpper v⟩] := by
  unfold handle_size_command
  rw [pySplitMax1_size_cmd v hne hv]
  dsimp only
  rw [pyStrip_eq_self v hv, if_neg hoff]
  simp only [subsOf, List.filter_append, ensure_user_sizeSubs,
    filter_user_of_filter_not]
  simp

/-- Helper: a `/size` disable command (off/stop/cancel, any case) with a
whitespace-free keyword deletes every subscription row of the user. -/
theorem handleSize_off (u : Int) (v : String) (db : DB)
    (hne : v.toList ≠ []) (hv : ∀ c ∈ v.toList, pyIsSpace c = false)
    (hoff : pyLower v ∈ offWords) :
    subsOf (handle_size_command u ("/size " ++ v) db).2 u = [] := by
  unfold handle_size_command
  rw [pySplitMax1_size_cmd v hne hv]
  dsimp only
  rw [pyStrip_eq_self v hv, if_pos hoff]
  simp only [subsOf, ensure_user_sizeSubs, filter_user_of_filter_not]

/-- Helper: no single `/size` command can leave a user with more
subscription rows than `max 1 (previous count)`. -/
theorem handleSize_count (u : Int) (t : String) (db : DB) :
    (subsOf (handle_size_command u t db).2 u).length
      ≤ max 1 (subsOf db u).length := by
  unfold handle_size_command
  rcases hs : pySplitMax1 t with _ | ⟨a, _ | ⟨b, rest⟩⟩
  · exact le_max_right _ _
  · exact le_max_right _ _
  · dsimp only
    by_cases hoff : pyLower (pyStrip b) ∈ offWords
    · rw [if_pos hoff]
      simp only [subsOf, ensure_user_sizeSubs, filter_user_of_filter_not]
      simp
    · rw [if_neg hoff]
      simp only [subsOf, List.filter_append, ensure_user_sizeSubs,
        filter_user_of_filter_not]
      simp

/-- Helper: a whole sequence of `/size` commands preserves "at most one
subscription row for the user". -/
theorem applySizeCmds_le_one (u : Int) (texts : List String) :
    ∀ db : DB, (subsOf db u).length ≤ 1 →
      (subsOf (applySizeCmds u texts db) u).length ≤ 1 := by
  induction texts with
  | nil => intro db h; exact h
  | cons t ts ih =>
    intro db h
    exact ih _ (le_trans (handleSize_count u t db) (max_le (le_refl 1) h))

/-- C7: starting from a store satisfying the at-most-one-subscription
invariant, any sequence of `/size` commands preserves it; a `/size <VALUE>`
command deletes the user's subscriptions and inserts the single upper-cased
row in the same transaction; issuing `/size <v>` then `/size off` leaves no
row; issuing `/size <v>` then `/size <w>` leaves exactly the row for the
latest value. -/
theorem sizeCommand_at_most_one (db : DB) (u : Int) (texts : List String)
    (v w : String)
    (hinit : (subsOf db u).length ≤ 1)
    (hvne : v.toList ≠ []) (hv : ∀ c ∈ v.toList, pyIsSpace c = false)
    (hvoff : pyLower v ∉ offWords)
    (hwne : w.toList ≠ []) (hw : ∀ c ∈ w.toList, pyIsSpace c = false)
    (hwoff : pyLower w ∉ offWords) :
    (subsOf (applySizeCmds u texts db) u).length ≤ 1
    ∧ subsOf (handle_size_command u ("/size " ++ v) db).2 u = [⟨u, pyUpper v⟩]
    ∧ subsOf (handle_size_command u ("/size " ++ "off")
        (handle_size_command u ("/size " ++ v) db).2).2 u = []
    ∧ subsOf (handle_size_command u ("/size " ++ w)
        (handle_size_command u ("/size " ++ v) db).2).2 u = [⟨u, pyUpper w⟩] :=
  ⟨applySizeCmds_le_one u texts db hinit,
   handleSize_set u v db hvne hv hvoff,
   handleSize_off u "off" _ (by decide) (by decide) (by decide),
   handleSize_set u w _ hwne hw hwoff⟩

/-- C7 (witness): for user 7 on the messy store, the sequence
`/size s`, bare `/size` keeps the invariant, `/size m` yields the single row
M, `/size m` then `/size off` leaves none, and `/size m` then `/size L`
leaves the single row L. -/
theorem sizeCommand_at_most_one_witness :
    (subsOf (applySizeCmds 7 ["/size s", "/size"] dbMessy) 7).length ≤ 1
    ∧ subsOf (handle_size_command 7 ("/size " ++ "m") dbMessy).2 7 = [⟨7, pyUpper "m"⟩]
    ∧ subsOf (handle_size_command 7 ("/size " ++ "off")
        (handle_size_command 7 ("/size " ++ "m") dbMessy).2).2 7 = []
    ∧ subsOf (handle_size_command 7 ("/size " ++ "L")
        (handle_size_command 7 ("/size " ++ "m") dbMessy).2).2 7 = [⟨7, pyUpper "L"⟩] :=
  sizeCommand_at_most_one dbMessy 7 ["/size s", "/size"] "m" "L"
    (by decide) (by decide) (by decide) (by decide)
    (by decide) (by decide) (by decide)

/-- Helper: the reconciliation pass flags nothing — no orphan, no duplicate,
no quantity change — exactly when every row resolves to a live product with
quantity 1, no product repeats, and no product was seen before the pass. -/
theorem reconcileLoop_clean_iff (db : DB) :
    ∀ (l : List CartItem) (seen : List Nat),
      ((reconcileLoop db seen l).2.1 = [] ∧ (reconcileLoop db seen l).2.2.1 = []
        ∧ (reconcileLoop db seen l).2.2.2 = false)
      ↔ ((∀ it ∈ l, (findProduct db it.product_id).isSome = true ∧ it.quantity = 1
            ∧ it.product_id ∉ seen)
          ∧ (l.map (fun it => it.product_id)).Nodup) := by
  intro l
  induction l with
  | nil => intro seen; simp [reconcileLoop]
  | cons it rest ih =>
    intro seen
    by_cases h1 : (findProduct db it.product_id).isNone
    · simp only [reconcileLoop, if_pos h1]
      constructor
      · rintro ⟨h, -, -⟩
        exact absurd h (by simp)
      · rintro ⟨hall, -⟩
        rcases hall it (List.mem_cons_self _ _) with ⟨hsome, -, -⟩
        rw [Option.isNone_iff_eq_none] at h1
        rw [h1] at hsome
        exact absurd hsome (by simp)
    · by_cases h2 : it.product_id ∈ seen
      · simp only [reconcileLoop, if_neg h1, if_pos h2]
        constructor
        · rintro ⟨-, h, -⟩
          exact absurd h (by simp)
        · rintro ⟨hall, -⟩
          exact absurd h2 (hall it (List.mem_cons_self _ _)).2.2
      · simp only [reconcileLoop, if_neg h1, if_neg h2]
        constructor
        · rintro ⟨ho, hd, hq⟩
          rcases Bool.or_eq_false_iff.mp hq with ⟨hq1, hq2⟩
          have hq1' : it.quantity = 1 := by simpa using hq1
          have hrest := (ih (it.product_id :: seen)).mp ⟨ho, hd, hq2⟩
          refine ⟨?_, ?_⟩
          · intro x hx
            rcases List.mem_cons.mp hx with rfl | hx
            · exact ⟨Option.ne_none_iff_isSome.mp (by simpa using h1), hq1', h2⟩
            · rcases hrest.1 x hx with ⟨ha, hb, hc⟩
              exact ⟨ha, hb, fun hmem => hc (List.mem_cons_of_mem _ hmem)⟩
          · rw [List.map_cons, List.nodup_cons]
            refine ⟨?_, hrest.2⟩
            intro hmem
            rcases List.mem_map.mp hmem with ⟨x, hx, hpx⟩
            exact (hrest.1 x hx).2.2 (by rw [hpx]; exact List.mem_cons_self _ _)
        · rintro ⟨hall, hnodup⟩
          rcases hall it (List.mem_cons_self _ _) with ⟨-, hq1, -⟩
          rw [List.map_cons, List.nodup_cons] at hnodup
          have hrest := (ih (it.product_id :: seen)).mpr
            ⟨fun x hx => by
              rcases hall x (List.mem_cons_of_mem _ hx) with ⟨ha, hb, hc⟩
              refine ⟨ha, hb, ?_⟩
              intro hmem
              rcases List.mem_cons.mp hmem with heq | hmem'
              · exact hnodup.1 (List.mem_map.mpr ⟨x, hx, heq⟩)
              · exact hc hmem',
             hnodup.2⟩
          exact ⟨hrest.1, hrest.2.1, by rw [hrest.2.2, hq1]; simp⟩

/-- C6: `get_cart` commits a write exactly when some mutation occurred — the
commit flag is false iff the user's cart already satisfies the invariants (no
orphan, no duplicate, all quantities 1) — and on an invariant-satisfying cart
the call leaves the store untouched. -/
theorem getCart_commits_iff_mutation (uid : Int) (db : DB) :
    ((get_cart uid db).2.2 = false ↔ cartInvariant uid db)
    ∧ (cartInvariant uid db → (get_cart uid db).2.1 = db) := by
  have hiff := reconcileLoop_clean_iff db
    (db.cartItems.filter (fun r => r.user_id == uid)) []
  have hmain : (get_cart uid db).2.2 = false ↔ cartInvariant uid db := by
    unfold get_cart
    dsimp only
    rw [Bool.or_eq_false_iff, Bool.or_eq_false_iff]
    unfold cartInvariant
    constructor
    · rintro ⟨⟨ho, hd⟩, hq⟩
      have h3 := hiff.mp
        ⟨by simpa using ho, by simpa using hd, hq⟩
      exact ⟨fun x hx => ⟨(h3.1 x hx).1, (h3.1 x hx).2.1⟩, h3.2⟩
    · rintro ⟨hall, hnodup⟩
      have h3 := hiff.mpr
        ⟨fun x hx => ⟨(hall x hx).1, (hall x hx).2, List.not_mem_nil _⟩, hnodup⟩
      exact ⟨⟨by simp [h3.1], by simp [h3.2.1]⟩, h3.2.2⟩
  refine ⟨hmain, fun hinv => ?_⟩
  have hc : (get_cart uid db).2.2 = false := hmain.mpr hinv
  unfold get_cart at hc ⊢
  dsimp only at hc ⊢
  simp only [hc]
  rfl

/-- C6 (witness): user 8's cart in the messy store already satisfies the
invariants, so the read neither commits nor changes the store; user 7's cart
violates them, so the read commits. -/
theorem getCart_commits_iff_mutation_witness :
    (get_cart 8 dbMessy).2.2 = false
    ∧ (get_cart 8 dbMessy).2.1 = dbMessy
    ∧ (get_cart 7 dbMessy).2.2 = true :=
  ⟨(getCart_commits_iff_mutation 8 dbMessy).1.mpr (by decide),
   (getCart_commits_iff_mutation 8 dbMessy).2 (by decide),
   by
    have h := (getCart_commits_iff_mutation 7 dbMessy).1
    cases hb : (get_cart 7 dbMessy).2.2 with
    | false => exact absurd (h.mp hb) (by decide)
    | true => rfl⟩

/-- Helper: the valid rows computed by the reconciliation pass are exactly
the keep-first deduplication of the orphan-free rows, quantities pinned. -/
theorem reconcileLoop_valid_spec (db : DB) :
    ∀ (l : List CartItem) (seen : List Nat),
      (reconcileLoop db seen l).1
        = (dedupByProduct seen (l.filter
            (fun it => (findProduct db it.product_id).isSome))).map
            (fun it => { it with quantity := 1 }) := by
  intro l
  induction l with
  | nil => intro seen; rfl
  | cons it rest ih =>
    intro seen
    by_cases h1 : (findProduct db it.product_id).isNone
    · have h1' : (findProduct db it.product_id).isSome = false := by
        rw [Option.isNone_iff_eq_none] at h1
        rw [h1]
        rfl
      simp only [reconcileLoop, if_pos h1, List.filter_cons, h1']
      simpa using ih seen
    · have h1' : (findProduct db it.product_id).isSome = true := by
        rcases hfp : findProduct db it.product_id with _ | p
        · exact absurd (by rw [hfp]; rfl) h1
        · rfl
      by_cases h2 : it.product_id ∈ seen
      · simp only [reconcileLoop, if_neg h1, if_pos h2, List.filter_cons, h1',
          if_true, dedupByProduct]
        simpa [h2] using ih seen
      · simp only [reconcileLoop, if_neg h1, if_neg h2, List.filter_cons, h1',
          if_true, dedupByProduct]
        simp only [if_neg h2, List.map_cons]
        exact congrArg _ (ih (it.product_id :: seen))

/-- Helper: deduplicated rows have pairwise distinct product references,
none of them previously seen. -/
theorem dedupByProduct_nodup :
    ∀ (l : List CartItem) (seen : List Nat),
      ((dedupByProduct seen l).map (fun it => it.product_id)).Nodup
      ∧ ∀ x ∈ dedupByProduct seen l, x.product_id ∉ seen := by
  intro l
  induction l with
  | nil => intro seen; exact ⟨List.nodup_nil, by simp [dedupByProduct]⟩
  | cons it rest ih =>
    intro seen
    by_cases h : it.product_id ∈ seen
    · simp only [dedupByProduct, if_pos h]
      exact ih seen
    · simp only [dedupByProduct, if_neg h]
      rcases ih (it.product_id :: seen) with ⟨hnd, hmem⟩
      refine ⟨?_, ?_⟩
      · rw [List.map_cons, List.nodup_cons]
        refine ⟨?_, hnd⟩
        intro hc
        rcases List.mem_map.mp hc with ⟨x, hx, hpx⟩
        exact hmem x hx (by rw [hpx]; exact List.mem_cons_self _ _)
      · intro x hx
        rcases List.mem_cons.mp hx with rfl | hx'
        · exact h
        · exact fun hmem2 => hmem x hx' (List.mem_cons_of_mem _ hmem2)

/-- Helper: deduplication only drops rows, never invents them. -/
theorem dedupByProduct_subset :
    ∀ (l : List CartItem) (seen : List Nat), ∀ x ∈ dedupByProduct seen l, x ∈ l := by
  intro l
  induction l with
  | nil => intro seen x hx; simp [dedupByProduct] at hx
  | cons it rest ih =>
    intro seen x hx
    by_cases h : it.product_id ∈ seen
    · rw [dedupByProduct, if_pos h] at hx
      exact List.mem_cons_of_mem _ (ih seen x hx)
    · rw [dedupByProduct, if_neg h] at hx
      rcases List.mem_cons.mp hx with rfl | hx'
      · exact List.mem_cons_self _ _
      · exact List.mem_cons_of_mem _ (ih (it.product_id :: seen) x hx')

/-- Helper: deduplication is the identity on a list with pairwise distinct,
unseen product references. -/
theorem dedupByProduct_eq_self :
    ∀ (l : List CartItem) (seen : List Nat),
      ((l.map (fun it => it.product_id)).Nodup) →
      (∀ x ∈ l, x.product_id ∉ seen) →
      dedupByProduct seen l = l := by
  intro l
  induction l with
  | nil => intro seen _ _; rfl
  | cons it rest ih =>
    intro seen hnd hs
    rw [List.map_cons, List.nodup_cons] at hnd
    rw [dedupByProduct, if_neg (hs it (List.mem_cons_self _ _))]
    refine congrArg _ (ih (it.product_id :: seen) hnd.2 ?_)
    intro x hx hmem
    rcases List.mem_cons.mp hmem with heq | hmem'
    · exact hnd.1 (List.mem_map.mpr ⟨x, hx, heq⟩)
    · exact hs x (List.mem_cons_of_mem _ hx) hmem'

/-- Helper: pinning quantities is the identity when they are already 1. -/
theorem map_setQuantity_eq_self :
    ∀ l : List CartItem, (∀ x ∈ l, x.quantity = 1) →
      l.map (fun it => ({ it with quantity := 1 } : CartItem)) = l := by
  intro l
  induction l with
  | nil => intro _; rfl
  | cons it rest ih =>
    intro h
    rw [List.map_cons, ih (fun x hx => h x (List.mem_cons_of_mem _ hx))]
    have h1 : it.quantity = 1 := h it (List.mem_cons_self _ _)
    have : ({ it with quantity := 1 } : CartItem) = it := by
      cases it
      simp_all
    rw [this]

/-- Helper: a row-wise update that preserves a predicate commutes with
filtering by that predicate. -/
theorem filter_filterMap_comm (p : CartItem → Bool) (g : CartItem → Option CartItem)
    (hg : ∀ r r', g r = some r' → p r' = p r) :
    ∀ L : List CartItem, (L.filterMap g).filter p = (L.filter p).filterMap g := by
  intro L
  induction L with
  | nil => rfl
  | cons r L ih =>
    rcases hgr : g r with _ | r'
    · rw [List.filterMap_cons_none hgr, ih, List.filter_cons]
      by_cases hp : p r
      · rw [if_pos hp, List.filterMap_cons_none hgr]
      · rw [if_neg hp]
    · rw [List.filterMap_cons_some hgr, List.filter_cons, List.filter_cons,
        hg r r' hgr]
      by_cases hp : p r
      · rw [if_pos hp, if_pos hp, List.filterMap_cons_some hgr, ih]
      · rw [if_neg hp, if_neg hp, ih]

/-- Helper: every orphan id, duplicate id and kept id produced by the
reconciliation pass is the id of a row of the input list. -/
theorem reconcileLoop_ids_sub (db : DB) :
    ∀ (l : List CartItem) (seen : List Nat),
      (∀ x ∈ (reconcileLoop db seen l).2.1 ++ (reconcileLoop db seen l).2.2.1,
          x ∈ l.map (fun r => r.id))
      ∧ (∀ x ∈ (reconcileLoop db seen l).1.map (fun r => r.id),
          x ∈ l.map (fun r => r.id)) := by
  intro l
  induction l with
  | nil => intro seen; constructor <;> intro x hx <;> simp [reconcileLoop] at hx
  | cons it rest ih =>
    intro seen
    by_cases h1 : (findProduct db it.product_id).isNone
    · simp only [reconcileLoop, if_pos h1]
      rcases ih seen with ⟨iha, ihb⟩
      constructor
      · intro x hx
        rcases List.mem_append.mp hx with hx1 | hx2
        · rcases List.mem_cons.mp hx1 with rfl | hx1'
          · exact List.mem_cons_self _ _
          · exact List.mem_cons_of_mem _ (iha x (List.mem_append_left _ hx1'))
        · exact List.mem_cons_of_mem _ (iha x (List.mem_append_right _ hx2))
      · intro x hx
        exact List.mem_cons_of_mem _ (ihb x hx)
    · by_cases h2 : it.product_id ∈ seen
      · simp only [reconcileLoop, if_neg h1, if_pos h2]
        rcases ih seen with ⟨iha, ihb⟩
        constructor
        · intro x hx
          rcases List.mem_append.mp hx with hx1 | hx2
          · exact List.mem_cons_of_mem _ (iha x (List.mem_append_left _ hx1))
          · rcases List.mem_cons.mp hx2 with rfl | hx2'
            · exact List.mem_cons_self _ _
            · exact List.mem_cons_of_mem _ (iha x (List.mem_append_right _ hx2'))
        · intro x hx
          exact List.mem_cons_of_mem _ (ihb x hx)
      · simp only [reconcileLoop, if_neg h1, if_neg h2]
        rcases ih (it.product_id :: seen) with ⟨iha, ihb⟩
        constructor
        · intro x hx
          exact List.mem_cons_of_mem _ (iha x hx)
        · intro x hx
          rw [List.map_cons] at hx
          rw [List.map_cons]
          rcases List.mem_cons.mp hx with rfl | hx'
          · exact List.mem_cons_self _ _
          · exact List.mem_cons_of_mem _ (ihb x hx')

/-- Helper: applying the delete-and-pin update of `get_cart` to the fetched
rows reproduces exactly the valid rows, provided the row ids are distinct. -/
theorem reconcileLoop_filterMap (db : DB) :
    ∀ (l : List CartItem) (seen : List Nat), (l.map (fun r => r.id)).Nodup →
      (l.filterMap (fun row =>
        if row.id ∈ (reconcileLoop db seen l).2.1 ++ (reconcileLoop db seen l).2.2.1
          then none
        else if row.id ∈ (reconcileLoop db seen l).1.map (fun it => it.id) then
          some { row with quantity := 1 }
        else some row)) = (reconcileLoop db seen l).1 := by
  intro l
  induction l with
  | nil => intro seen _; rfl
  | cons it rest ih =>
    intro seen hnd
    rw [List.map_cons, List.nodup_cons] at hnd
    obtain ⟨hid, hndr⟩ := hnd
    have hne : ∀ r ∈ rest, r.id ≠ it.id := by
      intro r hr heq
      exact hid (List.mem_map.mpr ⟨r, hr, heq⟩)
    by_cases h1 : (findProduct db it.product_id).isNone
    · simp only [reconcileLoop, if_pos h1]
      rw [List.filterMap_cons_none
        (by rw [if_pos (List.mem_append_left _ (List.mem_cons_self _ _))])]
      rw [List.filterMap_congr (g := fun row =>
        if row.id ∈ (reconcileLoop db seen rest).2.1
            ++ (reconcileLoop db seen rest).2.2.1 then none
        else if row.id ∈ (reconcileLoop db seen rest).1.map (fun x => x.id) then
          some { row with quantity := 1 }
        else some row)]
      · exact ih seen hndr
      · intro r hr
        have hr1 : (r.id ∈ it.id :: (reconcileLoop db seen rest).2.1
              ++ (reconcileLoop db seen rest).2.2.1)
            ↔ (r.id ∈ (reconcileLoop db seen rest).2.1
              ++ (reconcileLoop db seen rest).2.2.1) := by
          rw [List.cons_append, List.mem_cons]
          exact or_iff_right (hne r hr)
        by_cases hmem : r.id ∈ (reconcileLoop db seen rest).2.1
            ++ (reconcileLoop db seen rest).2.2.1
        · rw [if_pos (hr1.mpr hmem), if_pos hmem]
        · rw [if_neg (fun hc => hmem (hr1.mp hc)), if_neg hmem]
    · by_cases h2 : it.product_id ∈ seen
      · simp only [reconcileLoop, if_neg h1, if_pos h2]
        rw [List.filterMap_cons_none
          (by rw [if_pos (List.mem_append_right _ (List.mem_cons_self _ _))])]
        rw [List.filterMap_congr (g := fun row =>
          if row.id ∈ (reconcileLoop db seen rest).2.1
              ++ (reconcileLoop db seen rest).2.2.1 then none
          else if row.id ∈ (reconcileLoop db seen rest).1.map (fun x => x.id) then
            some { row with quantity := 1 }
          else some row)]
        · exact ih seen hndr
        · intro r hr
          have hr1 : (r.id ∈ (reconcileLoop db seen rest).2.1
                ++ it.id :: (reconcileLoop db seen rest).2.2.1)
              ↔ (r.id ∈ (reconcileLoop db seen rest).2.1
                ++ (reconcileLoop db seen rest).2.2.1) := by
            rw [List.mem_append, List.mem_cons, List.mem_append]
            constructor
            · rintro (h | h | h)
              · exact Or.inl h
              · exact absurd h (hne r hr)
              · exact Or.inr h
            · rintro (h | h)
              · exact Or.inl h
              · exact Or.inr (Or.inr h)
          by_cases hmem : r.id ∈ (reconcileLoop db seen rest).2.1
              ++ (reconcileLoop db seen rest).2.2.1
          · rw [if_pos (hr1.mpr hmem), if_pos hmem]
          · rw [if_neg (fun hc => hmem (hr1.mp hc)), if_neg hmem]
      · simp only [reconcileLoop, if_neg h1, if_neg h2]
        have hnotrem : it.id ∉ (reconcileLoop db (it.product_id :: seen) rest).2.1
            ++ (reconcileLoop db (it.product_id :: seen) rest).2.2.1 := by
          intro hc
          exact hid ((reconcileLoop_ids_sub db rest (it.product_id :: seen)).1 it.id hc)
        rw [List.filterMap_cons_some
          (by rw [if_neg hnotrem,
                if_pos (by rw [List.map_cons]; exact List.mem_cons_self _ _)])]
        rw [List.filterMap_congr (g := fun row =>
          if row.id ∈ (reconcileLoop db (it.product_id :: seen) rest).2.1
              ++ (reconcileLoop db (it.product_id :: seen) rest).2.2.1 then none
          else if row.id ∈ (reconcileLoop db (it.product_id :: seen) rest).1.map
              (fun x => x.id) then
            some { row with quantity := 1 }
          else some row)]
        · rw [ih (it.product_id :: seen) hndr]
        · intro r hr
          by_cases hmem : r.id ∈ (reconcileLoop db (it.product_id :: seen) rest).2.1
              ++ (reconcileLoop db (it.product_id :: seen) rest).2.2.1
          · rw [if_pos hmem, if_pos hmem]
          · rw [if_neg hmem, if_neg hmem]
            have hk : (r.id ∈ (({ it with quantity := 1 } : CartItem)
                  :: (reconcileLoop db (it.product_id :: seen) rest).1).map
                    (fun x => x.id))
                ↔ (r.id ∈ (reconcileLoop db (it.product_id :: seen) rest).1.map
                    (fun x => x.id)) := by
              rw [List.map_cons, List.mem_cons]
              exact or_iff_right (hne r hr)
            by_cases hkm : r.id ∈ (reconcileLoop db (it.product_id :: seen) rest).1.map
                (fun x => x.id)
            · rw [if_pos (hk.mpr hkm), if_pos hkm]
            · rw [if_neg (fun hc => hkm (hk.mp hc)), if_neg hkm]

/-- C5: over a store with distinct row ids, `get_cart` returns exactly the
keep-first deduplication of the user's orphan-free rows in fetch order (so at
most one row per (user, product)), every returned row belongs to the user,
has quantity 1 and a live product, no product repeats, and the store after
the call holds exactly the returned rows for that user — the removals and
corrections are persisted. -/
theorem getCart_reconciles (uid : Int) (db : DB)
    (hids : (db.cartItems.map (fun r => r.id)).Nodup) :
    (get_cart uid db).1 = specValidCart uid db
    ∧ (∀ it ∈ (get_cart uid db).1, it.user_id = uid ∧ it.quantity = 1
        ∧ (findProduct db it.product_id).isSome = true)
    ∧ ((get_cart uid db).1.map (fun it => it.product_id)).Nodup
    ∧ (get_cart uid db).2.1.cartItems.filter (fun r => r.user_id == uid)
        = (get_cart uid db).1 := by
  have hvalid : (get_cart uid db).1 = specValidCart uid db := by
    unfold get_cart specValidCart
    dsimp only
    exact reconcileLoop_valid_spec db _ []
  have hmem : ∀ it ∈ (get_cart uid db).1, it.user_id = uid ∧ it.quantity = 1
      ∧ (findProduct db it.product_id).isSome = true := by
    intro it hit
    rw [hvalid] at hit
    unfold specValidCart at hit
    rcases List.mem_map.mp hit with ⟨x, hx, rfl⟩
    have hx' := dedupByProduct_subset _ [] x hx
    have hx2 := List.mem_filter.mp hx'
    have hx3 := List.mem_filter.mp hx2.1
    exact ⟨by simpa using hx3.2, rfl, hx2.2⟩
  have hnd : ((get_cart uid db).1.map (fun it => it.product_id)).Nodup := by
    rw [hvalid]
    unfold specValidCart
    rw [List.map_map]
    exact (dedupByProduct_nodup _ []).1
  have hitems_nd : ((db.cartItems.filter (fun r => r.user_id == uid)).map
      (fun r => r.id)).Nodup :=
    List.Nodup.sublist (List.Sublist.map _ (List.filter_sublist _)) hids
  refine ⟨hvalid, hmem, hnd, ?_⟩
  unfold get_cart
  dsimp only
  split
  · dsimp only
    rw [filter_filterMap_comm _ _ ?hg]
    case hg =>
      rintro r r' h
      split_ifs at h <;> injection h with h' <;> rw [← h']
    exact reconcileLoop_filterMap db _ [] hitems_nd
  · next hcom =>
    have hc : (!(reconcileLoop db []
          (db.cartItems.filter (fun r => r.user_id == uid))).2.1.isEmpty
        || !(reconcileLoop db []
          (db.cartItems.filter (fun r => r.user_id == uid))).2.2.1.isEmpty
        || (reconcileLoop db []
          (db.cartItems.filter (fun r => r.user_id == uid))).2.2.2) = false := by
      cases hcb : (!(reconcileLoop db []
          (db.cartItems.filter (fun r => r.user_id == uid))).2.1.isEmpty
        || !(reconcileLoop db []
          (db.cartItems.filter (fun r => r.user_id == uid))).2.2.1.isEmpty
        || (reconcileLoop db []
          (db.cartItems.filter (fun r => r.user_id == uid))).2.2.2)
      · rfl
      · exact absurd hcb hcom
    have ho : (reconcileLoop db []
        (db.cartItems.filter (fun r => r.user_id == uid))).2.1 = [] := by
      rcases Bool.or_eq_false_iff.mp hc with ⟨h12, -⟩
      rcases Bool.or_eq_false_iff.mp h12 with ⟨h1, -⟩
      simpa using h1
    have hd : (reconcileLoop db []
        (db.cartItems.filter (fun r => r.user_id == uid))).2.2.1 = [] := by
      rcases Bool.or_eq_false_iff.mp hc with ⟨h12, -⟩
      rcases Bool.or_eq_false_iff.mp h12 with ⟨-, h2⟩
      simpa using h2
    have hq : (reconcileLoop db []
        (db.cartItems.filter (fun r => r.user_id == uid))).2.2.2 = false := by
      rcases Bool.or_eq_false_iff.mp hc with ⟨-, h3⟩
      exact h3
    have hclean := (reconcileLoop_clean_iff db
      (db.cartItems.filter (fun r => r.user_id == uid)) []).mp ⟨ho, hd, hq⟩
    rw [reconcileLoop_valid_spec db _ [],
      List.filter_eq_self.mpr (fun x hx => (hclean.1 x hx).1),
      dedupByProduct_eq_self _ [] hclean.2 (fun x _ => List.not_mem_nil _),
      map_setQuantity_eq_self _ (fun x hx => (hclean.1 x hx).2.1)]

/-- C5 (witness): over the messy store, user 7's cart read returns the
deduplicated single row, with pairwise-distinct products, and persists the
reduction: the post-call store holds exactly that row for user 7. -/
theorem getCart_reconciles_witness :
    (get_cart 7 dbMessy).1 = specValidCart 7 dbMessy
    ∧ ((get_cart 7 dbMessy).1.map (fun it => it.product_id)).Nodup
    ∧ (get_cart 7 dbMessy).2.1.cartItems.filter (fun r => r.user_id == (7 : Int))
        = (get_cart 7 dbMessy).1 :=
  ⟨(getCart_reconciles 7 dbMessy (by decide)).1,
   (getCart_reconciles 7 dbMessy (by decide)).2.2.1,
   (getCart_reconciles 7 dbMessy (by decide)).2.2.2⟩

/-- Helper: an id-preserving row-wise update maps the table's id list to a
sublist of itself. -/
theorem filterMap_ids_sublist (g : CartItem → Option CartItem)
    (hg : ∀ r r', g r = some r' → r'.id = r.id) :
    ∀ L : List CartItem,
      ((L.filterMap g).map (fun r => r.id)).Sublist (L.map (fun r => r.id)) := by
  intro L
  induction L with
  | nil => exact List.Sublist.refl _
  | cons r L ih =>
    rcases hgr : g r with _ | r'
    · rw [List.filterMap_cons_none hgr, List.map_cons]
      exact List.Sublist.cons _ ih
    · rw [List.filterMap_cons_some hgr, List.map_cons, List.map_cons, hg r r' hgr]
      exact List.Sublist.cons₂ _ ih

/-- Helper: when the user already has exactly one row for the product and it
has quantity 1 (and no other row shares its id), `add_to_cart` returns that
row and leaves the store unchanged. -/
theorem addToCart_noop (uid : Int) (pid : Nat) (db1 : DB) (x : CartItem)
    (hpn : (findProduct db1 pid).isNone = false)
    (hfilter : db1.cartItems.filter
      (fun r => r.user_id == uid && r.product_id == pid) = [x])
    (hq : x.quantity = 1)
    (huniq : ∀ r ∈ db1.cartItems, r.id = x.id → r = x) :
    add_to_cart uid pid db1 = (Except.ok x, db1) := by
  have hx1 : ({ x with quantity := 1 } : CartItem) = x := by
    cases x
    simp_all
  unfold add_to_cart
  rw [if_neg (by rw [hpn]; exact Bool.false_ne_true), hfilter]
  dsimp only
  have hFM : db1.cartItems.filterMap (fun r =>
      if r.id == x.id then some { r with quantity := 1 }
      else if r.id ∈ ([] : List CartItem).map (fun r => r.id) then none
      else some r) = db1.cartItems := by
    rw [List.filterMap_congr (g := some), List.filterMap_some]
    intro r hr
    by_cases hid : r.id == x.id
    · rw [if_pos hid]
      rw [huniq r hr (by simpa using hid), hx1]
    · rw [if_neg hid]
      simp
  rw [hx1, hFM]

/-- C10: when the product exists (over a store with distinct, fresh row ids),
`add_to_cart` leaves exactly one cart row for (user, product) and its
quantity is 1; calling it twice equals calling it once; and when a row
already existed, no new row is created — the id counter is unchanged and
every surviving row id was already present. -/
theorem addToCart_idempotent (uid : Int) (pid : Nat) (db : DB)
    (hp : (findProduct db pid).isSome = true)
    (hids : (db.cartItems.map (fun r => r.id)).Nodup)
    (hfresh : ∀ r ∈ db.cartItems, r.id < db.nextCartId) :
    (((add_to_cart uid pid db).2.cartItems.filter
        (fun r => r.user_id == uid && r.product_id == pid)).map
        (fun r => r.quantity)) = [1]
    ∧ add_to_cart uid pid (add_to_cart uid pid db).2 = add_to_cart uid pid db
    ∧ (db.cartItems.filter (fun r => r.user_id == uid && r.product_id == pid) ≠ [] →
        (add_to_cart uid pid db).2.nextCartId = db.nextCartId
        ∧ ∀ r ∈ (add_to_cart uid pid db).2.cartItems,
            r.id ∈ db.cartItems.map (fun r => r.id)) := by
  have hpn : (findProduct db pid).isNone = false := by
    rcases hfp : findProduct db pid with _ | q
    · rw [hfp] at hp
      exact absurd hp (by simp)
    · rfl
  have hpn' : ¬((findProduct db pid).isNone = true) := by
    rw [hpn]
    exact Bool.false_ne_true
  rcases hrows : db.cartItems.filter
      (fun r => r.user_id == uid && r.product_id == pid) with _ | ⟨first, extras⟩
  · -- no existing row: a fresh row with quantity 1 is appended
    have hitem : (add_to_cart uid pid db).2.cartItems
        = db.cartItems ++ [⟨db.nextCartId, uid, pid, 1⟩]
        ∧ (add_to_cart uid pid db).2
          = { db with
              cartItems := db.cartItems ++ [⟨db.nextCartId, uid, pid, 1⟩]
              nextCartId := db.nextCartId + 1 }
        ∧ (add_to_cart uid pid db).1 = Except.ok ⟨db.nextCartId, uid, pid, 1⟩ := by
      unfold add_to_cart
      rw [if_neg hpn', hrows]
      exact ⟨rfl, rfl, rfl⟩
    have hfa : (add_to_cart uid pid db).2.cartItems.filter
        (fun r => r.user_id == uid && r.product_id == pid)
        = [⟨db.nextCartId, uid, pid, 1⟩] := by
      rw [hitem.1, List.filter_append, hrows]
      simp
    refine ⟨by rw [hfa]; rfl, ?_, fun hne => absurd hrows hne⟩
    have hnoop : add_to_cart uid pid (add_to_cart uid pid db).2
        = (Except.ok ⟨db.nextCartId, uid, pid, 1⟩, (add_to_cart uid pid db).2) := by
      refine addToCart_noop uid pid _ _ ?_ hfa rfl ?_
      · rw [hitem.2.1]
        exact hpn
      · intro r hr hrid
        rw [hitem.1] at hr
        rcases List.mem_append.mp hr with hr1 | hr2
        · exact absurd hrid (Nat.ne_of_lt (hfresh r hr1))
        · simpa using hr2
    rw [hnoop, ← hitem.2.2]
  · -- an existing row: first survives with quantity 1, extras are deleted
    have hsub : ((db.cartItems.filter
        (fun r => r.user_id == uid && r.product_id == pid)).map
        (fun r => r.id)).Nodup :=
      List.Nodup.sublist (List.Sublist.map _ (List.filter_sublist _)) hids
    rw [hrows, List.map_cons, List.nodup_cons] at hsub
    have hne_first : ∀ x ∈ extras, x.id ≠ first.id := by
      intro x hx heq
      exact hsub.1 (List.mem_map.mpr ⟨x, hx, heq⟩)
    have hfirst_mem' : first ∈ db.cartItems.filter
        (fun r => r.user_id == uid && r.product_id == pid) := by
      rw [hrows]
      exact List.mem_cons_self _ _
    have hfirst_mem : first ∈ db.cartItems := List.mem_of_mem_filter hfirst_mem'
    have hfirst_p : (first.user_id == uid && first.product_id == pid) = true :=
      (List.mem_filter.mp hfirst_mem').2
    have hstate : (add_to_cart uid pid db).2
        = { db with cartItems := db.cartItems.filterMap (fun r =>
            if r.id == first.id then some { r with quantity := 1 }
            else if r.id ∈ extras.map (fun r => r.id) then none
            else some r) }
        ∧ (add_to_cart uid pid db).1 = Except.ok { first with quantity := 1 } := by
      unfold add_to_cart
      rw [if_neg hpn', hrows]
      exact ⟨rfl, rfl⟩
    have hgp : ∀ (r r' : CartItem), (if r.id == first.id then some { r with quantity := 1 }
        else if r.id ∈ extras.map (fun r => r.id) then none
        else some r) = some r' →
        ((fun r => r.user_id == uid && r.product_id == pid) r'
          = (fun r => r.user_id == uid && r.product_id == pid) r) := by
      rintro r r' h
      split_ifs at h <;> injection h with h' <;> rw [← h']
    have hgid : ∀ (r r' : CartItem), (if r.id == first.id then some { r with quantity := 1 }
        else if r.id ∈ extras.map (fun r => r.id) then none
        else some r) = some r' → r'.id = r.id := by
      rintro r r' h
      split_ifs at h <;> injection h with h' <;> rw [← h']
    have hfa : (add_to_cart uid pid db).2.cartItems.filter
        (fun r => r.user_id == uid && r.product_id == pid)
        = [{ first with quantity := 1 }] := by
      rw [hstate.1]
      dsimp only
      rw [filter_filterMap_comm _ _ hgp, hrows,
        List.filterMap_cons_some (by rw [if_pos (by simp)]),
        List.filterMap_eq_nil_iff.mpr ?hextras]
      case hextras =>
        intro x hx
        rw [if_neg (by simpa using hne_first x hx),
          if_pos (List.mem_map.mpr ⟨x, hx, rfl⟩)]
    have hnd1 : ((add_to_cart uid pid db).2.cartItems.map (fun r => r.id)).Nodup := by
      rw [hstate.1]
      exact List.Nodup.sublist (filterMap_ids_sublist _ hgid _) hids
    have hmem1 : ({ first with quantity := 1 } : CartItem)
        ∈ (add_to_cart uid pid db).2.cartItems := by
      rw [hstate.1]
      exact List.mem_filterMap.mpr ⟨first, hfirst_mem, by rw [if_pos (by simp)]⟩
    have hnoop : add_to_cart uid pid (add_to_cart uid pid db).2
        = (Except.ok ({ first with quantity := 1 } : CartItem),
            (add_to_cart uid pid db).2) := by
      refine addToCart_noop uid pid _ _ ?_ hfa rfl ?_
      · rw [hstate.1]
        exact hpn
      · intro r hr hrid
        exact List.inj_on_of_nodup_map hnd1 hr hmem1 hrid
    refine ⟨by rw [hfa]; rfl, by rw [hnoop, ← hstate.2], fun _ => ⟨?_, ?_⟩⟩
    · rw [hstate.1]
    · intro r hr
      rw [hstate.1] at hr
      dsimp only at hr
      rcases List.mem_filterMap.mp hr with ⟨a, ha, hga⟩
      exact List.mem_map.mpr ⟨a, ha, (hgid a r hga).symm⟩

/-- C10 (witness): adding product 5 for user 7 over the messy store — which
already holds duplicate rows for that pair — leaves exactly one row with
quantity 1, a second identical call changes nothing, and no new row id is
allocated. -/
theorem addToCart_idempotent_witness :
    (((add_to_cart 7 5 dbMessy).2.cartItems.filter
        (fun r => r.user_id == (7 : Int) && r.product_id == (5 : Nat))).map
        (fun r => r.quantity)) = [1]
    ∧ add_to_cart 7 5 (add_to_cart 7 5 dbMessy).2 = add_to_cart 7 5 dbMessy
    ∧ (add_to_cart 7 5 dbMessy).2.nextCartId = dbMessy.nextCartId :=
  ⟨(addToCart_idempotent 7 5 dbMessy (by decide) (by decide) (by decide)).1,
   (addToCart_idempotent 7 5 dbMessy (by decide) (by decide) (by decide)).2.1,
   ((addToCart_idempotent 7 5 dbMessy (by decide) (by decide) (by decide)).2.2
      (by decide)).1⟩

end RooneyForm
